import Mathlib

/-!
Shallow embedding of the Netflix-clone backend (`src/main.py`, `src/schemas.py`).

The document store (MongoDB via the repository's `database` module, which is
not part of the sources) is modelled as explicit state: three typed
collections plus a fresh-identifier counter.  Internal identifiers
(`bson.ObjectId`) are modelled as natural numbers; their external string form
(`str(oid)`) is modelled as the decimal numeral, and the `ObjectId(s)`
constructor as a decimal parser that fails on any string that is not a
numeral — this mirrors the one property the code relies on: some strings are
well-formed identifiers and round-trip, others make the constructor raise.
-/

namespace NetflixClone

/-- One decimal digit `d < 10` rendered as a character. -/
def digitChar (d : Nat) : Char := Char.ofNat (48 + d)

/-- A digit character back to its value. -/
def charToDigit (c : Char) : Nat := c.toNat - 48

/-- Little-endian digit expansion of `n`, with explicit fuel (fuel `n` is
always enough since `n / 10 < n` for `n > 0`). -/
def toDigitsRev (fuel n : Nat) : List Nat :=
  match fuel with
  | 0 => []
  | fuel + 1 => if n = 0 then [] else (n % 10) :: toDigitsRev fuel (n / 10)

/-- Value of a little-endian digit list. -/
def ofDigitsLE : List Nat → Nat
  | [] => 0
  | d :: ds => d + 10 * ofDigitsLE ds

/-- Model of `str(ObjectId)`: the decimal numeral of the identifier. -/
def oidToString (n : Nat) : String :=
  if n = 0 then "0" else ⟨((toDigitsRev n n).reverse.map digitChar)⟩

/-- Model of the `ObjectId(s)` constructor: succeeds exactly on well-formed
identifier strings (here: non-empty all-digit strings); on any other string
the Python constructor raises `bson.errors.InvalidId`. -/
def parseObjectId (s : String) : Option Nat :=
  if !s.data.isEmpty && s.data.all Char.isDigit then
    some (ofDigitsLE ((s.data.map charToDigit).reverse))
  else
    none

/-- A field value of a stored document (subset of BSON the app uses). -/
inductive Value where
  | vStr (s : String)
  | vInt (n : Int)
  | vRat (q : ℚ)
  | vBool (b : Bool)
  | vOid (n : Nat)
  | vStrList (l : List String)
  | vNull
deriving DecidableEq, Repr

/-- A document as Python sees it: a dict, modelled as a key-ordered
association list with pairwise-distinct keys. -/
abbrev Doc : Type := List (String × Value)

/-- Dict lookup `d[k]`, `none` when the key is absent. -/
def getKey (d : Doc) (k : String) : Option Value :=
  (d.find? (fun kv => kv.1 == k)).map (fun kv => kv.2)

/-- Python `d.pop(k)`: the dict without key `k`. -/
def popKey (d : Doc) (k : String) : Doc :=
  d.filter (fun kv => kv.1 != k)

/-- Assignment `d[k] = v`: replace in place when the key exists, else append. -/
def setKey (d : Doc) (k : String) (v : Value) : Doc :=
  if d.any (fun kv => kv.1 == k) then
    d.map (fun kv => if kv.1 == k then (k, v) else kv)
  else
    d ++ [(k, v)]

/-- Python `str()` on a field value, as `to_str_id` applies it to `_id`
(in practice always a `vOid`). -/
def strOfValue : Value → String
  | .vStr s => s
  | .vInt n => toString n
  | .vRat q => toString q
  | .vBool b => if b then "True" else "False"
  | .vOid n => oidToString n
  | .vStrList _ => ""
  | .vNull => "None"

/-- The normalizer `to_str_id(doc)` from `main.py`: pass a falsy input (Python `None` or the
empty dict) through unchanged; otherwise copy the dict and, when `_id` is
present, pop it and store its string form under `id`. -/
def to_str_id (doc : Option Doc) : Option Doc :=
  match doc with
  | none => none
  | some d =>
    if d = ([] : Doc) then some d
    else
      match getKey d "_id" with
      | none => some d
      | some v => some (setKey (popKey d "_id") "id" (.vStr (strOfValue v)))

/-! ## Data model (`src/schemas.py`) and store state

The `database` module (`create_document`, `get_documents`, the `db` handle)
is part of the repository but absent from the sources; its behaviour is
modelled from the spec (§4.1): `create` inserts with a store-generated
identifier (populating unset timestamps when the schema declares them) and
returns the identifier string; queries are exact-match filters returning
documents in insertion order; a scalar filter value on a list-valued field
(`genres`, `tokens`) matches by membership. -/

/-- The `User` schema (`schemas.py`): stored user document.  `password_hash`
holds the raw password in this demo; timestamps are modelled as naturals. -/
structure UserDoc where
  oid : Nat
  name : String
  email : String
  password_hash : String
  created_at : Option Nat
  updated_at : Option Nat
  tokens : List String
deriving DecidableEq, Repr

/-- The `Movie` schema (`schemas.py`): stored movie document.  `rating` floats
are modelled as rationals; the schema declares no timestamps for movies. -/
structure MovieDoc where
  oid : Nat
  title : String
  description : Option String
  year : Option Int
  genres : List String
  rating : Option ℚ
  duration_minutes : Option Int
  thumbnail_url : Option String
  video_url : Option String
  featured : Bool
deriving DecidableEq, Repr

/-- The `ListItem` schema (`schemas.py`): a watch-list row. -/
structure ListItemDoc where
  oid : Nat
  user_id : String
  movie_id : String
  created_at : Option Nat
  updated_at : Option Nat
deriving DecidableEq, Repr

/-- The document store: the three collections (in insertion order), the
store's fresh-identifier supply, and the current time for timestamps. -/
structure DB where
  users : List UserDoc
  movies : List MovieDoc
  listitems : List ListItemDoc
  nextOid : Nat
  now : Nat
deriving DecidableEq, Repr

def optNatValue : Option Nat → Value
  | none => .vNull
  | some n => .vInt n

/-- The dict MongoDB returns for a stored user. -/
def userDoc (u : UserDoc) : Doc :=
  [("_id", .vOid u.oid), ("name", .vStr u.name), ("email", .vStr u.email),
   ("password_hash", .vStr u.password_hash),
   ("created_at", optNatValue u.created_at), ("updated_at", optNatValue u.updated_at),
   ("tokens", .vStrList u.tokens)]

def optStrValue : Option String → Value
  | none => .vNull
  | some s => .vStr s

def optIntValue : Option Int → Value
  | none => .vNull
  | some n => .vInt n

def optRatValue : Option ℚ → Value
  | none => .vNull
  | some q => .vRat q

/-- The dict MongoDB returns for a stored movie. -/
def movieDoc (m : MovieDoc) : Doc :=
  [("_id", .vOid m.oid), ("title", .vStr m.title),
   ("description", optStrValue m.description), ("year", optIntValue m.year),
   ("genres", .vStrList m.genres), ("rating", optRatValue m.rating),
   ("duration_minutes", optIntValue m.duration_minutes),
   ("thumbnail_url", optStrValue m.thumbnail_url),
   ("video_url", optStrValue m.video_url), ("featured", .vBool m.featured)]

/-- The dict MongoDB returns for a stored list item. -/
def listItemDoc (i : ListItemDoc) : Doc :=
  [("_id", .vOid i.oid), ("user_id", .vStr i.user_id), ("movie_id", .vStr i.movie_id),
   ("created_at", optNatValue i.created_at), ("updated_at", optNatValue i.updated_at)]

/-- Store invariant maintained by the system: every stored identifier is
below the fresh-identifier supply, and user rows have pairwise-distinct
identifiers and pairwise-distinct emails. -/
def DB.WF (db : DB) : Prop :=
  (∀ u ∈ db.users, u.oid < db.nextOid) ∧
  (∀ m ∈ db.movies, m.oid < db.nextOid) ∧
  (∀ i ∈ db.listitems, i.oid < db.nextOid) ∧
  (db.users.map (fun u => u.oid)).Nodup ∧
  (db.users.map (fun u => u.email)).Nodup

instance (db : DB) : Decidable db.WF := by unfold DB.WF; infer_instance

/-- Mongo `update_one`: apply `f` to the first element satisfying `p`. -/
def updateFirst {α : Type} (p : α → Bool) (f : α → α) : List α → List α
  | [] => []
  | x :: xs => if p x then f x :: xs else x :: updateFirst p f xs

/-! ## Errors

`Err.validation` is a pydantic `ValidationError` raised while constructing a
schema model; `Err.http c m` is `HTTPException(c, m)`; `Err.invalidId s` is
the `bson.errors.InvalidId` raised by `ObjectId(s)` when it escapes the
handler (as in `get_list`). -/

inductive Err where
  | validation (msg : String)
  | http (code : Nat) (msg : String)
  | invalidId (s : String)
deriving DecidableEq, Repr

instance {ε α : Type} [DecidableEq ε] [DecidableEq α] : DecidableEq (Except ε α) := fun a b =>
  match a, b with
  | .ok x, .ok y =>
    if h : x = y then isTrue (by rw [h])
    else isFalse (fun hc => by injection hc with h2; exact h h2)
  | .error x, .error y =>
    if h : x = y then isTrue (by rw [h])
    else isFalse (fun hc => by injection hc with h2; exact h h2)
  | .ok _, .error _ => isFalse (fun hc => Except.noConfusion hc)
  | .error _, .ok _ => isFalse (fun hc => Except.noConfusion hc)

/-- A handler outcome: the Python return value or the escaping exception,
paired with the store state when the handler finished (exceptions keep the
side effects already performed). -/
abbrev Res (α : Type) : Type := Except Err α × DB

/-! ## Identity and session endpoints (`main.py`) -/

/-- Shallow model of the external `EmailStr` validator pydantic applies when
a `User` model is constructed: we abstract the third-party email-syntax
check as “contains an `@`”; no claim depends on its details. -/
def emailValid (s : String) : Bool := s.data.contains '@'

/-- The `AuthResponse` model (`main.py`): token plus normalized user dict. -/
structure AuthResponse where
  token : String
  user : Option Doc
deriving DecidableEq, Repr

/-- Endpoint `register` (`main.py`): conflict when a user with the email exists;
otherwise construct the `User` model (raw password as `password_hash`,
empty token list), insert it, push the email-as-token, re-read and return
the normalized user. -/
def register (db : DB) (name email password : String) : Res AuthResponse :=
  match db.users.find? (fun u => u.email == email) with
  | some _ => (.error (.http 400 "Email already registered"), db)
  | none =>
    if emailValid email then
      let u : UserDoc :=
        { oid := db.nextOid, name := name, email := email, password_hash := password,
          created_at := some db.now, updated_at := some db.now, tokens := [] }
      let db1 : DB := { db with users := db.users ++ [u], nextOid := db.nextOid + 1 }
      let user_id := oidToString u.oid
      match parseObjectId user_id with
      | none => (.error (.invalidId user_id), db1)
      | some o =>
        let token := email
        let db2 : DB := { db1 with
          users := updateFirst (fun v => v.oid == o)
            (fun v => { v with tokens := v.tokens ++ [token] }) db1.users }
        let created := (db2.users.find? (fun v => v.oid == o)).map userDoc
        (.ok { token := token, user := to_str_id created }, db2)
    else
      (.error (.validation "value is not a valid email address"), db)

/-- Endpoint `login` (`main.py`): look the user up by email, reject on a missing user
or a password mismatch, otherwise `$addToSet` the email-as-token and return
the pre-update user snapshot. -/
def login (db : DB) (email password : String) : Res AuthResponse :=
  match db.users.find? (fun u => u.email == email) with
  | none => (.error (.http 401 "Invalid credentials"), db)
  | some user =>
    if user.password_hash ≠ password then
      (.error (.http 401 "Invalid credentials"), db)
    else
      let token := email
      let db1 : DB := { db with
        users := updateFirst (fun v => v.oid == user.oid)
          (fun v => if v.tokens.contains token then v else { v with tokens := v.tokens ++ [token] })
          db.users }
      (.ok { token := token, user := to_str_id (some (userDoc user)) }, db1)

/-! ## Catalog endpoints (`main.py`) -/

/-- The `MovieCreate` request model (`main.py`): plain shapes, no ranges. -/
structure MovieCreate where
  title : String
  description : Option String := none
  year : Option Int := none
  genres : List String := []
  rating : Option ℚ := none
  duration_minutes : Option Int := none
  thumbnail_url : Option String := none
  video_url : Option String := none
  featured : Bool := false
deriving DecidableEq, Repr

/-- The range constraints `Movie(**...)` enforces (`schemas.py`): year in
1900–2100, rating in 0–10, duration at least 1, when present. -/
def movieRangesOk (mc : MovieCreate) : Bool :=
  (match mc.year with | none => true | some y => decide (1900 ≤ y ∧ y ≤ 2100)) &&
  (match mc.rating with | none => true | some r => decide (0 ≤ r ∧ r ≤ 10)) &&
  (match mc.duration_minutes with | none => true | some d => decide (1 ≤ d))

/-- The stored movie built from a validated `MovieCreate`. -/
def mkMovieDoc (oid : Nat) (mc : MovieCreate) : MovieDoc :=
  { oid := oid, title := mc.title, description := mc.description, year := mc.year,
    genres := mc.genres, rating := mc.rating, duration_minutes := mc.duration_minutes,
    thumbnail_url := mc.thumbnail_url, video_url := mc.video_url, featured := mc.featured }

/-- Endpoint `create_movie` (`main.py`): validate via the `Movie` schema (raising
`ValidationError` before anything is inserted), insert, re-read by the
returned identifier and return the normalized movie. -/
def create_movie (db : DB) (mc : MovieCreate) : Res (Option Doc) :=
  if movieRangesOk mc then
    let m := mkMovieDoc db.nextOid mc
    let db1 : DB := { db with movies := db.movies ++ [m], nextOid := db.nextOid + 1 }
    let new_id := oidToString m.oid
    match parseObjectId new_id with
    | none => (.error (.invalidId new_id), db1)
    | some o =>
      (.ok (to_str_id ((db1.movies.find? (fun v => v.oid == o)).map movieDoc)), db1)
  else
    (.error (.validation "movie fields out of range"), db)

/-- The Mongo query `list_movies` builds: optional genre membership and
optional exact `featured` equality. -/
structure MovieQuery where
  genre : Option String
  featured : Option Bool
deriving DecidableEq, Repr

/-- Whether a stored movie matches the filter: a scalar value filtered
against the list-valued `genres` field matches by membership. -/
def movieMatches (q : MovieQuery) (m : MovieDoc) : Bool :=
  (match q.genre with | none => true | some g => m.genres.contains g) &&
  (match q.featured with | none => true | some f => m.featured == f)

/-- Modelled from the spec: `get_documents("movie", q)` from the missing
`database` module — all documents matching the exact-match filter, in
store (insertion) order. -/
def get_documents_movie (db : DB) (q : MovieQuery) : List MovieDoc :=
  db.movies.filter (movieMatches q)

/-- Endpoint `list_movies` (`main.py`): the filter keeps `genre` only when the
argument is truthy (so the empty string adds no filter) and keeps
`featured` whenever it was supplied; each result is normalized. -/
def list_movies (db : DB) (genre : Option String) (featured : Option Bool) :
    List (Option Doc) :=
  let q : MovieQuery :=
    { genre := match genre with
        | none => none
        | some g => if g = "" then none else some g,
      featured := featured }
  (get_documents_movie db q).map (fun m => to_str_id (some (movieDoc m)))

/-- The five demo entries of `seed_demo_movies` (`main.py`), literally. -/
def demoThumb : String :=
  "https://images.unsplash.com/photo-1524985069026-dd778a71c7b4?w=800&q=80&auto=format&fit=crop"

def demoVideo : String := "https://samplelib.com/lib/preview/mp4/sample-5s.mp4"

def demos : List MovieCreate :=
  [{ title := "The Horizon", description := some "A journey beyond the edge.",
     year := some 2023, genres := ["Sci-Fi", "Adventure"], rating := some (mkRat 81 10),
     duration_minutes := some 112, thumbnail_url := some demoThumb,
     video_url := some demoVideo, featured := true },
   { title := "Crimson City", description := some "Noir mystery in neon lights.",
     year := some 2022, genres := ["Thriller"], rating := some (mkRat 76 10),
     duration_minutes := some 98, thumbnail_url := some demoThumb,
     video_url := some demoVideo },
   { title := "Laugh Track", description := some "Standup that hits home.",
     year := some 2021, genres := ["Comedy"], rating := some (mkRat 72 10),
     duration_minutes := some 62, thumbnail_url := some demoThumb,
     video_url := some demoVideo },
   { title := "Planet Blue", description := some "Nature docu-series pilot.",
     year := some 2020, genres := ["Documentary"], rating := some (mkRat 87 10),
     duration_minutes := some 50, thumbnail_url := some demoThumb,
     video_url := some demoVideo },
   { title := "Shadow School", description := some "Teens with secret powers.",
     year := some 2024, genres := ["Drama", "Fantasy"], rating := some (mkRat 79 10),
     duration_minutes := some 45, thumbnail_url := some demoThumb,
     video_url := some demoVideo }]

/-- Outcome of `seed_demo_movies`: either the already-seeded message with
the current count, or the seeded message with the number inserted. -/
inductive SeedResponse where
  | already (count : Nat)
  | seeded (inserted : Nat)
deriving DecidableEq, Repr

/-- The seeding loop: `Movie(**d)` validation (raising mid-loop on a bad
entry, keeping earlier inserts), `create_document`, and the truthiness test
on the returned identifier string. -/
def seedLoop (db : DB) (ds : List MovieCreate) (inserted : Nat) : Res Nat :=
  match ds with
  | [] => (.ok inserted, db)
  | d :: rest =>
    if movieRangesOk d then
      let m := mkMovieDoc db.nextOid d
      let db1 : DB := { db with movies := db.movies ++ [m], nextOid := db.nextOid + 1 }
      let mid := oidToString m.oid
      seedLoop db1 rest (if mid ≠ "" then inserted + 1 else inserted)
    else
      (.error (.validation "movie fields out of range"), db)

/-- Endpoint `seed_demo_movies` (`main.py`): no-op with the current count when the
catalog is non-empty, otherwise insert the demo entries in order. -/
def seed_demo_movies (db : DB) : Res SeedResponse :=
  let count := db.movies.length
  if count > 0 then
    (.ok (.already count), db)
  else
    match seedLoop db demos 0 with
    | (.ok inserted, db1) => (.ok (.seeded inserted), db1)
    | (.error e, db1) => (.error e, db1)

/-! ## Watch-list endpoints (`main.py`) -/

/-- Endpoint `add_to_list` (`main.py`): resolve the token, return the existing
(user, movie) row unchanged when present, otherwise insert a new `ListItem`
(any `movie_id` string is accepted), re-read it and return it normalized. -/
def add_to_list (db : DB) (token movie_id : String) : Res (Option Doc) :=
  match db.users.find? (fun u => u.tokens.contains token) with
  | none => (.error (.http 401 "Invalid token"), db)
  | some user =>
    let uid := oidToString user.oid
    match db.listitems.find? (fun i => i.user_id == uid && i.movie_id == movie_id) with
    | some existing => (.ok (to_str_id (some (listItemDoc existing))), db)
    | none =>
      let item : ListItemDoc :=
        { oid := db.nextOid, user_id := uid, movie_id := movie_id,
          created_at := some db.now, updated_at := some db.now }
      let db1 : DB := { db with listitems := db.listitems ++ [item], nextOid := db.nextOid + 1 }
      let item_id := oidToString item.oid
      match parseObjectId item_id with
      | none => (.error (.invalidId item_id), db1)
      | some o =>
        (.ok (to_str_id ((db1.listitems.find? (fun i => i.oid == o)).map listItemDoc)), db1)

/-- The list comprehension `[ObjectId(i["movie_id"]) for i in items]`: stops
with the offending string as soon as one `ObjectId` constructor raises. -/
def parseAllOids : List String → Except String (List Nat)
  | [] => .ok []
  | s :: ss =>
    match parseObjectId s with
    | none => .error s
    | some o =>
      match parseAllOids ss with
      | .error t => .error t
      | .ok os => .ok (o :: os)

/-- Endpoint `get_list` (`main.py`): resolve the token, fetch the user's list rows,
convert every `movie_id` with the raising `ObjectId` constructor, then
return the normalized movies whose identifier is among the converted ones
(in movie-collection order). -/
def get_list (db : DB) (token : String) : Res (List (Option Doc)) :=
  match db.users.find? (fun u => u.tokens.contains token) with
  | none => (.error (.http 401 "Invalid token"), db)
  | some user =>
    let uid := oidToString user.oid
    let items := db.listitems.filter (fun i => i.user_id == uid)
    match parseAllOids (items.map (fun i => i.movie_id)) with
    | .error s => (.error (.invalidId s), db)
    | .ok movie_ids =>
      let movies :=
        if movie_ids.isEmpty then []
        else db.movies.filter (fun m => movie_ids.contains m.oid)
      (.ok (movies.map (fun m => to_str_id (some (movieDoc m)))), db)

/-- The watch-list invariant of the spec: a given (user, movie) pair appears
at most once in the list-item collection. -/
def pairUnique (db : DB) : Prop :=
  ∀ uid mid,
    (db.listitems.filter (fun i => i.user_id == uid && i.movie_id == mid)).length ≤ 1

/-! ## Concrete example states (used by witnesses and counterexamples) -/

def exUser : UserDoc :=
  { oid := 1, name := "Ann", email := "ann@x.com", password_hash := "pw",
    created_at := some 0, updated_at := some 0, tokens := ["ann@x.com"] }

def exMovieSciFi : MovieDoc :=
  { oid := 2, title := "A", description := none, year := some 2023,
    genres := ["Sci-Fi"], rating := some (mkRat 81 10), duration_minutes := some 112,
    thumbnail_url := none, video_url := none, featured := true }

def exMovieDrama : MovieDoc :=
  { oid := 3, title := "B", description := none, year := none,
    genres := ["Drama"], rating := none, duration_minutes := none,
    thumbnail_url := none, video_url := none, featured := false }

/-- A well-formed state: one user, two movies, one list item referring to
the Sci-Fi movie by its identifier string. -/
def exDB : DB :=
  { users := [exUser], movies := [exMovieSciFi, exMovieDrama],
    listitems := [{ oid := 4, user_id := "1", movie_id := "2",
                    created_at := some 0, updated_at := some 0 }],
    nextOid := 5, now := 7 }

/-- Like `exDB` but the list item's `movie_id` was never a well-formed
identifier (as `add_to_list` accepts any string). -/
def exDBbad : DB :=
  { exDB with listitems := [{ oid := 4, user_id := "1", movie_id := "bad",
                              created_at := some 0, updated_at := some 0 }] }

/-- An empty store. -/
def exDBempty : DB :=
  { users := [], movies := [], listitems := [], nextOid := 1, now := 0 }

/-- A user whose token set does not yet hold the email-as-token. -/
def exUserFresh : UserDoc :=
  { oid := 1, name := "Ann", email := "ann@x.com", password_hash := "pw",
    created_at := some 0, updated_at := some 0, tokens := [] }

def exDBfresh : DB :=
  { users := [exUserFresh], movies := [], listitems := [], nextOid := 2, now := 3 }

/-- The movie documents the seeding loop inserts for a given entry list,
starting at a given identifier. -/
def seededDocs (start : Nat) : List MovieCreate → List MovieDoc
  | [] => []
  | d :: rest => mkMovieDoc start d :: seededDocs (start + 1) rest

theorem toDigitsRev_lt_ten {fuel n d : Nat} (h : d ∈ toDigitsRev fuel n) : d < 10 := by
  induction fuel generalizing n with
  | zero => simp [toDigitsRev] at h
  | succ fuel ih =>
    by_cases hn : n = 0
    · simp [toDigitsRev, hn] at h
    · simp [toDigitsRev, hn] at h
      rcases h with h | h
      · omega
      · exact ih h

theorem toDigitsRev_ne_nil {n : Nat} (hn : n ≠ 0) : toDigitsRev n n ≠ [] := by
  cases n with
  | zero => exact absurd rfl hn
  | succ k => simp [toDigitsRev]

theorem ofDigitsLE_toDigitsRev {fuel n : Nat} (h : n ≤ fuel) :
    ofDigitsLE (toDigitsRev fuel n) = n := by
  induction fuel generalizing n with
  | zero => interval_cases n; simp [toDigitsRev, ofDigitsLE]
  | succ fuel ih =>
    by_cases hn : n = 0
    · simp [toDigitsRev, hn, ofDigitsLE]
    · have hdiv : n / 10 < n := Nat.div_lt_self (Nat.pos_of_ne_zero hn) (by norm_num)
      have hle : n / 10 ≤ fuel := by omega
      simp [toDigitsRev, hn, ofDigitsLE, ih hle, Nat.mod_add_div]

theorem digitChar_isDigit : ∀ d, d < 10 → (digitChar d).isDigit = true := by decide

theorem charToDigit_digitChar : ∀ d, d < 10 → charToDigit (digitChar d) = d := by decide

theorem oidToString_ne_empty (n : Nat) : oidToString n ≠ "" := by
  by_cases hn : n = 0
  · subst hn; decide
  · simp only [oidToString, hn, if_false]
    intro hcontra
    have hdata : ((toDigitsRev n n).reverse.map digitChar) = [] :=
      congrArg String.data hcontra
    have : toDigitsRev n n = [] := by
      simpa using hdata
    exact toDigitsRev_ne_nil hn this

theorem parseObjectId_oidToString (n : Nat) : parseObjectId (oidToString n) = some n := by
  by_cases hn : n = 0
  · subst hn; decide
  · have hne : toDigitsRev n n ≠ [] := toDigitsRev_ne_nil hn
    have hmap :
        ((toDigitsRev n n).reverse.map digitChar).map charToDigit
          = (toDigitsRev n n).reverse := by
      rw [List.map_map]
      have hcongr : ∀ d ∈ (toDigitsRev n n).reverse, (charToDigit ∘ digitChar) d = id d := by
        intro d hd
        have : d < 10 := toDigitsRev_lt_ten (List.mem_reverse.mp hd)
        simpa using charToDigit_digitChar d this
      rw [List.map_congr_left hcongr, List.map_id]
    have hdigits : ((toDigitsRev n n).reverse.map digitChar).all Char.isDigit = true := by
      rw [List.all_eq_true]
      intro c hc
      rcases List.mem_map.mp hc with ⟨d, hd, rfl⟩
      exact digitChar_isDigit d (toDigitsRev_lt_ten (List.mem_reverse.mp hd))
    have hnonempty : ((toDigitsRev n n).reverse.map digitChar).isEmpty = false := by
      rw [List.isEmpty_eq_false_iff_exists_mem]
      rcases List.exists_mem_of_ne_nil _ hne with ⟨d, hd⟩
      exact ⟨digitChar d, List.mem_map_of_mem _ (List.mem_reverse.mpr hd)⟩
    simp only [oidToString, hn, if_false, parseObjectId]
    simp only [hnonempty, hdigits, Bool.not_false, Bool.and_self, if_true]
    rw [hmap, List.reverse_reverse, ofDigitsLE_toDigitsRev (Nat.le_refl n)]

theorem find?_filter_of_imp {α : Type} (l : List α) (p q : α → Bool)
    (h : ∀ x, p x = true → q x = true) : (l.filter q).find? p = l.find? p := by
  induction l with
  | nil => rfl
  | cons x xs ih =>
    rw [List.filter_cons]
    by_cases hq : q x = true
    · rw [if_pos hq]
      by_cases hp : p x = true
      · rw [List.find?_cons_of_pos _ hp, List.find?_cons_of_pos _ hp]
      · rw [List.find?_cons_of_neg _ (by simp [hp]), List.find?_cons_of_neg _ (by simp [hp]), ih]
    · have hp : ¬ p x = true := fun hp => hq (h x hp)
      rw [if_neg hq, ih, List.find?_cons_of_neg _ (by simp [hp])]

theorem getKey_popKey_self (d : Doc) (k : String) : getKey (popKey d k) k = none := by
  have hfind : (popKey d k).find? (fun kv => kv.1 == k) = none := by
    rw [List.find?_eq_none]
    intro kv hkv
    have h2 := List.of_mem_filter hkv
    simp only [bne_iff_ne, ne_eq] at h2
    simp [h2]
  simp [getKey, hfind]

theorem getKey_popKey_ne (d : Doc) (k k' : String) (h : k ≠ k') :
    getKey (popKey d k') k = getKey d k := by
  unfold getKey popKey
  rw [find?_filter_of_imp]
  intro kv hkv
  simp only [beq_iff_eq] at hkv
  simp [bne_iff_ne, hkv, h]

theorem getKey_setKey_self (d : Doc) (k : String) (v : Value) :
    getKey (setKey d k v) k = some v := by
  unfold setKey
  by_cases hmem : d.any (fun kv => kv.1 == k) = true
  · rw [if_pos hmem]
    unfold getKey
    rw [List.find?_map]
    have hps : ((fun kv : String × Value => kv.1 == k) ∘
        fun kv => if kv.1 == k then (k, v) else kv) = fun kv => kv.1 == k := by
      funext kv
      by_cases hk : kv.1 = k <;> simp [hk]
    rw [hps]
    rcases List.any_eq_true.mp hmem with ⟨kv0, hmem0, hp0⟩
    cases hfind : d.find? (fun kv => kv.1 == k) with
    | none =>
      exact absurd hp0 (List.find?_eq_none.mp hfind kv0 hmem0)
    | some kv1 =>
      have hk1 : kv1.1 = k := by simpa using List.find?_some hfind
      simp [hfind, hk1]
  · rw [if_neg hmem]
    unfold getKey
    have hnone : d.find? (fun kv => kv.1 == k) = none := by
      rw [List.find?_eq_none]
      intro kv hkv hp
      exact hmem (List.any_eq_true.mpr ⟨kv, hkv, hp⟩)
    rw [List.find?_append, hnone]
    simp [List.find?]

theorem getKey_setKey_ne (d : Doc) (k k' : String) (v : Value) (h : k ≠ k') :
    getKey (setKey d k' v) k = getKey d k := by
  unfold setKey
  by_cases hmem : d.any (fun kv => kv.1 == k') = true
  · rw [if_pos hmem]
    unfold getKey
    rw [List.find?_map]
    have hps : ((fun kv : String × Value => kv.1 == k) ∘
        fun kv => if kv.1 == k' then (k', v) else kv) = fun kv => kv.1 == k := by
      funext kv
      by_cases hk : kv.1 = k' <;> simp [hk, Ne.symm h]
    rw [hps]
    cases hfind : d.find? (fun kv => kv.1 == k) with
    | none => rfl
    | some kv1 =>
      have hk1 : kv1.1 = k := by simpa using List.find?_some hfind
      simp [hk1, h]
  · rw [if_neg hmem]
    unfold getKey
    rw [List.find?_append]
    cases hfind : d.find? (fun kv => kv.1 == k) with
    | some kv1 => simp
    | none =>
      have hne : (k' == k) = false := by simp [Ne.symm h]
      simp [List.find?, hne]

/-! ## Shared list helpers -/

theorem find?_append_none {α : Type} {p : α → Bool} {l1 : List α} (l2 : List α)
    (h : l1.find? p = none) : (l1 ++ l2).find? p = l2.find? p := by
  rw [List.find?_append, h]
  rfl

theorem updateFirst_append {α : Type} (p : α → Bool) (f : α → α) (l1 l2 : List α)
    (h : ∀ y ∈ l1, p y = false) :
    updateFirst p f (l1 ++ l2) = l1 ++ updateFirst p f l2 := by
  induction l1 with
  | nil => rfl
  | cons x xs ih =>
    have hx : p x = false := h x (by simp)
    simp only [List.cons_append, updateFirst, hx, Bool.false_eq_true, if_false,
      List.cons.injEq, true_and]
    exact ih (fun y hy => h y (by simp [hy]))

theorem updateFirst_of_all_false {α : Type} (p : α → Bool) (f : α → α) (l : List α)
    (h : ∀ y ∈ l, p y = false) : updateFirst p f l = l := by
  induction l with
  | nil => rfl
  | cons x xs ih =>
    have hx : p x = false := h x (by simp)
    simp only [updateFirst, hx, Bool.false_eq_true, if_false, List.cons.injEq, true_and]
    exact ih (fun y hy => h y (by simp [hy]))

theorem find?_decomp {α : Type} {p : α → Bool} {l : List α} {x : α}
    (h : l.find? p = some x) :
    ∃ l1 l2, l = l1 ++ x :: l2 ∧ (∀ y ∈ l1, p y = false) := by
  induction l with
  | nil => simp [List.find?] at h
  | cons y ys ih =>
    by_cases hy : p y = true
    · rw [List.find?_cons_of_pos _ hy] at h
      injection h with h2
      exact ⟨[], ys, by simp [h2], by simp⟩
    · rw [List.find?_cons_of_neg _ hy] at h
      rcases ih h with ⟨l1, l2, hdec, hfalse⟩
      refine ⟨y :: l1, l2, by simp [hdec], ?_⟩
      intro z hz
      rcases List.mem_cons.mp hz with rfl | hz2
      · exact Bool.not_eq_true _ ▸ (by simpa using hy)
      · exact hfalse z hz2

theorem seededDocs_length (start : Nat) (ds : List MovieCreate) :
    (seededDocs start ds).length = ds.length := by
  induction ds generalizing start with
  | nil => rfl
  | cons d rest ih => simp [seededDocs, ih]

theorem seedLoop_all_ok (db : DB) (ds : List MovieCreate) (acc : Nat)
    (h : ∀ d ∈ ds, movieRangesOk d = true) :
    seedLoop db ds acc =
      (.ok (acc + ds.length),
       { db with movies := db.movies ++ seededDocs db.nextOid ds,
                 nextOid := db.nextOid + ds.length }) := by
  induction ds generalizing db acc with
  | nil => simp [seedLoop, seededDocs]
  | cons d rest ih =>
    have hd : movieRangesOk d = true := h d (by simp)
    rw [seedLoop]
    simp only [hd, if_true]
    rw [if_pos (oidToString_ne_empty _)]
    rw [ih _ _ (fun x hx => h x (by simp [hx]))]
    have hacc : acc + 1 + rest.length = acc + (rest.length + 1) := by omega
    have hoid : db.nextOid + 1 + rest.length = db.nextOid + (rest.length + 1) := by omega
    simp only [seededDocs, List.length_cons, hacc, hoid, List.append_assoc,
      List.singleton_append]

/-! ## Claim theorems -/

theorem seed_nonempty (db : DB) (h : db.movies ≠ []) :
    seed_demo_movies db = (.ok (.already db.movies.length), db) := by
  have hlen : db.movies.length > 0 := List.length_pos.mpr h
  simp [seed_demo_movies, hlen]

theorem seed_empty (db : DB) (h : db.movies = []) :
    seed_demo_movies db =
      (.ok (.seeded 5),
       { db with movies := seededDocs db.nextOid demos, nextOid := db.nextOid + 5 }) := by
  have hall : ∀ d ∈ demos, movieRangesOk d = true := by decide
  have hlen : ¬ db.movies.length > 0 := by simp [h]
  have hd5 : demos.length = 5 := rfl
  simp only [seed_demo_movies, gt_iff_lt, hlen, if_false]
  rw [seedLoop_all_ok db demos 0 hall, hd5, h]
  simp

/-- C2: seeding is idempotent — on a non-empty catalog `seed_demo_movies` is
a no-op reporting the current count; on an empty catalog it inserts exactly
the five demo entries in the listed order, reporting 5 inserted; hence a
second seed call never inserts anything. -/
theorem seed_demo_movies_idempotent (db : DB) :
    (db.movies ≠ [] →
      seed_demo_movies db = (.ok (.already db.movies.length), db)) ∧
    (db.movies = [] →
      seed_demo_movies db =
        (.ok (.seeded 5),
         { db with movies := seededDocs db.nextOid demos, nextOid := db.nextOid + 5 })) ∧
    (seed_demo_movies (seed_demo_movies db).2).2 = (seed_demo_movies db).2 := by
  refine ⟨seed_nonempty db, seed_empty db, ?_⟩
  by_cases h : db.movies = []
  · rw [seed_empty db h]
    have hne : (seededDocs db.nextOid demos) ≠ [] := by
      intro hc
      have hlen := seededDocs_length db.nextOid demos
      rw [hc] at hlen
      simp [demos] at hlen
    rw [seed_nonempty _ (by simpa using hne)]
  · simp [seed_nonempty db h]

/-- Witness for C2: seeding the empty store inserts the five demo entries,
and seeding again changes nothing. -/
theorem seed_demo_movies_idempotent_witness :
    seed_demo_movies exDBempty =
      (.ok (.seeded 5),
       { exDBempty with movies := seededDocs exDBempty.nextOid demos,
                        nextOid := exDBempty.nextOid + 5 }) ∧
    (seed_demo_movies (seed_demo_movies exDBempty).2).2 = (seed_demo_movies exDBempty).2 :=
  ⟨(seed_demo_movies_idempotent exDBempty).2.1 rfl,
   (seed_demo_movies_idempotent exDBempty).2.2⟩

/-- C6: for every movie-creation input, any out-of-range numeric field is
rejected with a `ValidationError`: a year outside 1900–2100, a rating
outside 0–10, or a duration below 1 makes `create_movie` fail before
anything is inserted, leaving the store unchanged. -/
theorem create_movie_rejects_out_of_range (db : DB) (mc : MovieCreate)
    (h : (∃ y, mc.year = some y ∧ (y < 1900 ∨ 2100 < y)) ∨
         (∃ r, mc.rating = some r ∧ (r < 0 ∨ 10 < r)) ∨
         (∃ d, mc.duration_minutes = some d ∧ d < 1)) :
    create_movie db mc = (.error (.validation "movie fields out of range"), db) := by
  have hko : movieRangesOk mc = false := by
    rcases h with ⟨y, hy, hrange⟩ | ⟨r, hr, hrange⟩ | ⟨d, hd, hrange⟩
    · have hdec : decide (1900 ≤ y ∧ y ≤ 2100) = false := by
        simp only [decide_eq_false_iff_not]
        intro hc
        omega
      unfold movieRangesOk
      rw [hy]
      simp [hdec]
    · have hdec : decide ((0 : ℚ) ≤ r ∧ r ≤ 10) = false := by
        simp only [decide_eq_false_iff_not]
        rintro ⟨h1, h2⟩
        rcases hrange with h3 | h3 <;> linarith
      unfold movieRangesOk
      rw [hr]
      simp [hdec]
    · have hdec : decide ((1 : Int) ≤ d) = false := by
        simp only [decide_eq_false_iff_not]
        omega
      unfold movieRangesOk
      rw [hd]
      simp [hdec]
  simp [create_movie, hko]

/-- Witness for C6: `create_movie(year=1500)`, `create_movie(rating=11)` and
`create_movie(duration_minutes=0)` are all rejected on the empty store. -/
theorem create_movie_rejects_out_of_range_witness :
    create_movie exDBempty { title := "X", year := some 1500 } =
      (.error (.validation "movie fields out of range"), exDBempty) ∧
    create_movie exDBempty { title := "X", rating := some 11 } =
      (.error (.validation "movie fields out of range"), exDBempty) ∧
    create_movie exDBempty { title := "X", duration_minutes := some 0 } =
      (.error (.validation "movie fields out of range"), exDBempty) :=
  ⟨create_movie_rejects_out_of_range exDBempty _ (.inl ⟨1500, rfl, by norm_num⟩),
   create_movie_rejects_out_of_range exDBempty _ (.inr (.inl ⟨11, rfl, by norm_num⟩)),
   create_movie_rejects_out_of_range exDBempty _ (.inr (.inr ⟨0, rfl, by norm_num⟩))⟩

/-- C7: `to_str_id` on a record containing the internal `_id` field yields a
record with no `_id` field and an `id` field holding the identifier as a
non-empty string; on an absent record it is a no-op. -/
theorem to_str_id_normalizes (d : Doc) (n : Nat)
    (h : getKey d "_id" = some (.vOid n)) :
    to_str_id none = none ∧
    ∃ d', to_str_id (some d) = some d' ∧
      getKey d' "_id" = none ∧
      getKey d' "id" = some (.vStr (oidToString n)) ∧
      oidToString n ≠ "" := by
  refine ⟨rfl, setKey (popKey d "_id") "id" (.vStr (oidToString n)), ?_, ?_, ?_,
    oidToString_ne_empty n⟩
  · have hne : d ≠ ([] : Doc) := by
      rintro rfl
      simp [getKey, List.find?] at h
    simp [to_str_id, hne, h, strOfValue]
  · rw [getKey_setKey_ne _ _ _ _ (by decide)]
    exact getKey_popKey_self d "_id"
  · exact getKey_setKey_self _ _ _

/-- Witness for C7: normalizing the stored example user produces an `id`
string "1" and no `_id` field. -/
theorem to_str_id_normalizes_witness :
    to_str_id none = none ∧
    ∃ d', to_str_id (some (userDoc exUser)) = some d' ∧
      getKey d' "_id" = none ∧
      getKey d' "id" = some (.vStr (oidToString 1)) ∧
      oidToString 1 ≠ "" :=
  to_str_id_normalizes (userDoc exUser) 1 (by decide)

/-- C10: `list_movies` treats an empty-string genre argument as no genre
filter (Python truthiness), while `featured=false` is a real filter; in
particular the example catalog's non-featured drama movie, whose genres do
not contain the empty string, is returned by `list_movies(genre="")`. -/
theorem list_movies_falsy_genre (db : DB) :
    (∀ f, list_movies db (some "") f = list_movies db none f) ∧
    (list_movies db none (some false) =
      (db.movies.filter (fun m => m.featured == false)).map
        (fun m => to_str_id (some (movieDoc m)))) ∧
    (exMovieDrama.featured = false ∧ ("" ∈ exMovieDrama.genres → False) ∧
      to_str_id (some (movieDoc exMovieDrama)) ∈ list_movies exDB (some "") none) := by
  refine ⟨fun f => rfl, ?_, by decide⟩
  simp only [list_movies, get_documents_movie]
  congr 1

/-- Counterexample to C8 as stated: with the empty-string genre argument,
`list_movies` does not return only the movies whose genres list contains
that genre — on the example catalog it returns every movie even though no
movie has the empty string among its genres. -/
theorem list_movies_filter_counterexample :
    list_movies exDB (some "") none ≠
      (exDB.movies.filter (fun m => m.genres.contains "")).map
        (fun m => to_str_id (some (movieDoc m))) := by decide

/-- C8 (amended): for every catalog state, `list_movies` with a non-empty
genre argument returns exactly the movies whose genres list contains it;
with `featured` given it returns exactly the movies whose flag equals it;
with both given, their intersection; with no filters, all movies. -/
theorem list_movies_filter_spec (db : DB) (g : String) (f : Bool) (hg : g ≠ "") :
    list_movies db (some g) none =
      (db.movies.filter (fun m => m.genres.contains g)).map
        (fun m => to_str_id (some (movieDoc m))) ∧
    list_movies db none (some f) =
      (db.movies.filter (fun m => m.featured == f)).map
        (fun m => to_str_id (some (movieDoc m))) ∧
    list_movies db (some g) (some f) =
      (db.movies.filter (fun m => m.genres.contains g && m.featured == f)).map
        (fun m => to_str_id (some (movieDoc m))) ∧
    list_movies db none none = db.movies.map (fun m => to_str_id (some (movieDoc m))) := by
  refine ⟨?_, ?_, ?_, ?_⟩
  · simp only [list_movies, get_documents_movie, hg, if_false]
    congr 1
    refine List.filter_congr ?_
    intro m hm
    simp [movieMatches]
  · simp only [list_movies, get_documents_movie]
    congr 1
  · simp only [list_movies, get_documents_movie, hg, if_false]
    congr 1
  · simp only [list_movies, get_documents_movie]
    have hall : movieMatches { genre := none, featured := none } = fun _ => true := by
      funext m
      simp [movieMatches]
    rw [hall, List.filter_true]

/-- Witness for C8 (amended): the genre and featured filters evaluated on
the example catalog. -/
theorem list_movies_filter_spec_witness :
    list_movies exDB (some "Sci-Fi") none =
      (exDB.movies.filter (fun m => m.genres.contains "Sci-Fi")).map
        (fun m => to_str_id (some (movieDoc m))) ∧
    list_movies exDB none (some true) =
      (exDB.movies.filter (fun m => m.featured == true)).map
        (fun m => to_str_id (some (movieDoc m))) ∧
    list_movies exDB (some "Sci-Fi") (some true) =
      (exDB.movies.filter (fun m => m.genres.contains "Sci-Fi" && m.featured == true)).map
        (fun m => to_str_id (some (movieDoc m))) ∧
    list_movies exDB none none = exDB.movies.map (fun m => to_str_id (some (movieDoc m))) :=
  list_movies_filter_spec exDB "Sci-Fi" true (by decide)

/-- Counterexample to C1 as stated: in `exDBbad` the token resolves and the
user's stored list is non-empty, but the list item whose `movie_id` was
never a well-formed identifier makes `get_list` fail with the raising
`ObjectId` constructor instead of being silently dropped. -/
theorem get_list_counterexample :
    exDBbad.users.find? (fun v => v.tokens.contains "ann@x.com") = some exUser ∧
    exDBbad.listitems ≠ [] ∧
    get_list exDBbad "ann@x.com" = (.error (.invalidId "bad"), exDBbad) := by decide

/-- C1 (amended): with a valid token, when every list item's `movie_id`
parses as an identifier, `get_list` succeeds and returns exactly the
normalized movies whose identifier is referenced — items whose referenced
movie no longer exists are silently dropped; but when some item's
`movie_id` was never a well-formed identifier the whole operation fails
with that string's invalid-identifier error. -/
theorem get_list_spec (db : DB) (token : String) (u : UserDoc)
    (hu : db.users.find? (fun v => v.tokens.contains token) = some u) :
    (∀ ids, parseAllOids ((db.listitems.filter (fun i => i.user_id == oidToString u.oid)).map
        (fun i => i.movie_id)) = .ok ids →
      get_list db token =
        (.ok ((db.movies.filter (fun m => ids.contains m.oid)).map
          (fun m => to_str_id (some (movieDoc m)))), db)) ∧
    (∀ s, parseAllOids ((db.listitems.filter (fun i => i.user_id == oidToString u.oid)).map
        (fun i => i.movie_id)) = .error s →
      get_list db token = (.error (.invalidId s), db)) := by
  constructor
  · intro ids hids
    simp only [get_list, hu, hids]
    by_cases hempty : ids.isEmpty
    · have hnil : ids = [] := by simpa using hempty
      subst hnil
      simp [List.filter_false]
    · simp [hempty]
  · intro s hs
    simp only [get_list, hu, hs]

/-- Witness for C1 (amended): on the example state the single list item
parses, the dangling-free result is the referenced movie. -/
theorem get_list_spec_witness :
    parseAllOids ((exDB.listitems.filter (fun i => i.user_id == oidToString exUser.oid)).map
        (fun i => i.movie_id)) = .ok [2] ∧
    get_list exDB "ann@x.com" =
      (.ok ((exDB.movies.filter (fun m => List.contains [2] m.oid)).map
        (fun m => to_str_id (some (movieDoc m)))), exDB) :=
  ⟨by decide, (get_list_spec exDB "ann@x.com" exUser (by decide)).1 [2] (by decide)⟩

/-- C3: with a valid token and the (user, movie) pair not yet present,
`add_to_list` inserts exactly one row (regardless of whether `movie_id`
names an existing movie — no hypothesis relates it to the catalog), a second
identical add returns the very same normalized row while changing nothing,
and the at-most-once invariant for (user, movie) pairs is preserved. -/
theorem add_to_list_spec (db : DB) (token movie_id : String) (u : UserDoc)
    (hwf : db.WF)
    (hu : db.users.find? (fun v => v.tokens.contains token) = some u)
    (habs : db.listitems.find? (fun i => i.user_id == oidToString u.oid &&
      i.movie_id == movie_id) = none) :
    ∃ item : ListItemDoc,
      item.user_id = oidToString u.oid ∧ item.movie_id = movie_id ∧
      add_to_list db token movie_id =
        (.ok (to_str_id (some (listItemDoc item))),
         { db with listitems := db.listitems ++ [item], nextOid := db.nextOid + 1 }) ∧
      add_to_list { db with listitems := db.listitems ++ [item], nextOid := db.nextOid + 1 }
          token movie_id =
        (.ok (to_str_id (some (listItemDoc item))),
         { db with listitems := db.listitems ++ [item], nextOid := db.nextOid + 1 }) ∧
      (db.listitems ++ [item]).length = db.listitems.length + 1 ∧
      (pairUnique db →
        pairUnique { db with listitems := db.listitems ++ [item], nextOid := db.nextOid + 1 }) := by
  refine ⟨{ oid := db.nextOid, user_id := oidToString u.oid, movie_id := movie_id,
            created_at := some db.now, updated_at := some db.now },
    rfl, rfl, ?_, ?_, by simp, ?_⟩
  · simp only [add_to_list, hu, habs, parseObjectId_oidToString]
    have hpref : db.listitems.find? (fun i => i.oid == db.nextOid) = none := by
      rw [List.find?_eq_none]
      intro i hi
      have hlt := hwf.2.2.1 i hi
      have hne : i.oid ≠ db.nextOid := by omega
      simp [hne]
    rw [find?_append_none _ hpref, List.find?_cons_of_pos _ (by simp)]
    rfl
  · simp only [add_to_list, hu]
    rw [find?_append_none _ habs, List.find?_cons_of_pos _ (by simp)]
  · intro hpu uid mid
    unfold pairUnique at hpu
    simp only
    rw [List.filter_append]
    by_cases hmatch : ((oidToString u.oid == uid) && (movie_id == mid)) = true
    · simp only [Bool.and_eq_true, beq_iff_eq] at hmatch
      obtain ⟨h1, h2⟩ := hmatch
      subst h1
      subst h2
      have hnil : db.listitems.filter (fun i => i.user_id == oidToString u.oid &&
          i.movie_id == movie_id) = [] := by
        rw [List.filter_eq_nil_iff]
        intro i hi
        have := List.find?_eq_none.mp habs i hi
        simpa using this
      rw [hnil]
      simp
    · have hnil2 : List.filter (fun i => i.user_id == uid && i.movie_id == mid)
          [({ oid := db.nextOid, user_id := oidToString u.oid, movie_id := movie_id,
              created_at := some db.now, updated_at := some db.now } : ListItemDoc)] = [] := by
        simp only [List.filter, hmatch]
      rw [hnil2, List.append_nil]
      exact hpu uid mid

/-- Witness for C3: adding a `movie_id` that names no movie in the catalog
to the example user's list succeeds and behaves idempotently. -/
theorem add_to_list_spec_witness :
    ∃ item : ListItemDoc,
      item.user_id = oidToString exUser.oid ∧ item.movie_id = "9" ∧
      add_to_list exDB "ann@x.com" "9" =
        (.ok (to_str_id (some (listItemDoc item))),
         { exDB with listitems := exDB.listitems ++ [item], nextOid := exDB.nextOid + 1 }) ∧
      add_to_list { exDB with listitems := exDB.listitems ++ [item],
                              nextOid := exDB.nextOid + 1 } "ann@x.com" "9" =
        (.ok (to_str_id (some (listItemDoc item))),
         { exDB with listitems := exDB.listitems ++ [item], nextOid := exDB.nextOid + 1 }) ∧
      (exDB.listitems ++ [item]).length = exDB.listitems.length + 1 ∧
      (pairUnique exDB →
        pairUnique { exDB with listitems := exDB.listitems ++ [item],
                               nextOid := exDB.nextOid + 1 }) :=
  add_to_list_spec exDB "ann@x.com" "9" exUser (by decide) (by decide) (by decide)

theorem register_conflict (db : DB) (name email password : String)
    (h : ∃ u ∈ db.users, u.email = email) :
    register db name email password = (.error (.http 400 "Email already registered"), db) := by
  rcases h with ⟨u0, hmem, hemail⟩
  cases hfind : db.users.find? (fun v => v.email == email) with
  | none =>
    have := List.find?_eq_none.mp hfind u0 hmem
    simp [hemail] at this
  | some u1 => simp [register, hfind]

/-- C4: `register` fails with the email-conflict error when a user with the
exact email exists (so a second registration with the same email always
conflicts) and otherwise stores the password verbatim as `password_hash`
and returns a token equal to the email string. -/
theorem register_spec (db : DB) (name email password : String)
    (hwf : db.WF) (hv : emailValid email = true) :
    ((∃ u ∈ db.users, u.email = email) →
      register db name email password = (.error (.http 400 "Email already registered"), db)) ∧
    ((∀ u ∈ db.users, u.email ≠ email) →
      ∃ nu : UserDoc,
        nu.email = email ∧ nu.password_hash = password ∧ nu.name = name ∧
        nu.tokens = [email] ∧
        register db name email password =
          (.ok { token := email, user := to_str_id (some (userDoc nu)) },
           { db with users := db.users ++ [nu], nextOid := db.nextOid + 1 }) ∧
        (∀ name2 password2,
          register { db with users := db.users ++ [nu], nextOid := db.nextOid + 1 }
              name2 email password2 =
            (.error (.http 400 "Email already registered"),
             { db with users := db.users ++ [nu], nextOid := db.nextOid + 1 }))) := by
  refine ⟨register_conflict db name email password, ?_⟩
  intro hnone
  have hfind : db.users.find? (fun v => v.email == email) = none := by
    rw [List.find?_eq_none]
    intro v hvmem
    simp [hnone v hvmem]
  refine ⟨{ oid := db.nextOid, name := name, email := email, password_hash := password,
            created_at := some db.now, updated_at := some db.now, tokens := [email] },
    rfl, rfl, rfl, rfl, ?_, ?_⟩
  · simp only [register, hfind, hv, if_true, parseObjectId_oidToString]
    have hfalse : ∀ y ∈ db.users, (y.oid == db.nextOid) = false := by
      intro y hy
      have hlt := hwf.1 y hy
      have hne : y.oid ≠ db.nextOid := by omega
      simp [hne]
    rw [updateFirst_append _ _ _ _ hfalse]
    rw [show updateFirst (fun v : UserDoc => v.oid == db.nextOid)
          (fun v => { v with tokens := v.tokens ++ [email] })
          [{ oid := db.nextOid, name := name, email := email, password_hash := password,
             created_at := some db.now, updated_at := some db.now, tokens := [] }] =
        [{ oid := db.nextOid, name := name, email := email, password_hash := password,
           created_at := some db.now, updated_at := some db.now, tokens := [email] }] by
      simp [updateFirst]]
    rw [find?_append_none _ (by
      rw [List.find?_eq_none]
      intro y hy
      simp [hfalse y hy])]
    rw [List.find?_cons_of_pos _ (by simp)]
    rfl
  · intro name2 password2
    refine register_conflict _ name2 email password2
      ⟨{ oid := db.nextOid, name := name, email := email, password_hash := password,
         created_at := some db.now, updated_at := some db.now, tokens := [email] },
       by simp, rfl⟩

/-- Witness for C4: registering a fresh user on the empty store succeeds
with token equal to the email and verbatim password, and re-registering the
same email conflicts. -/
theorem register_spec_witness :
    ∃ nu : UserDoc,
      nu.email = "bob@x.com" ∧ nu.password_hash = "pw2" ∧ nu.name = "Bob" ∧
      nu.tokens = ["bob@x.com"] ∧
      register exDBempty "Bob" "bob@x.com" "pw2" =
        (.ok { token := "bob@x.com", user := to_str_id (some (userDoc nu)) },
         { exDBempty with users := exDBempty.users ++ [nu],
                          nextOid := exDBempty.nextOid + 1 }) ∧
      (∀ name2 password2,
        register { exDBempty with users := exDBempty.users ++ [nu],
                                  nextOid := exDBempty.nextOid + 1 }
            name2 "bob@x.com" password2 =
          (.error (.http 400 "Email already registered"),
           { exDBempty with users := exDBempty.users ++ [nu],
                            nextOid := exDBempty.nextOid + 1 })) :=
  (register_spec exDBempty "Bob" "bob@x.com" "pw2" (by decide) (by decide)).2 (by decide)

/-- Looking a user up by email under the unique-emails invariant finds any
member that carries that email. -/
theorem users_find?_email {db : DB} (hnd : (db.users.map (fun u => u.email)).Nodup)
    {u0 : UserDoc} {email : String} (hmem : u0 ∈ db.users) (he : u0.email = email) :
    db.users.find? (fun v => v.email == email) = some u0 := by
  cases hfind : db.users.find? (fun v => v.email == email) with
  | none =>
    have := List.find?_eq_none.mp hfind u0 hmem
    simp [he] at this
  | some u1 =>
    have hmem1 : u1 ∈ db.users := List.mem_of_find?_eq_some hfind
    have he1 : u1.email = email := by simpa using List.find?_some hfind
    have : u1 = u0 := List.inj_on_of_nodup_map hnd hmem1 hmem (by rw [he1, he])
    rw [this]

/-- What a successful `login` does to the store: the first matching user is
replaced in place by the token-updated user, and the response carries the
pre-update snapshot. -/
theorem login_success_state (db : DB) (email password : String) (u : UserDoc)
    (hwf : db.WF)
    (hu : db.users.find? (fun v => v.email == email) = some u)
    (hpw : u.password_hash = password) :
    ∃ l1 l2, db.users = l1 ++ u :: l2 ∧
      (∀ y ∈ l1, (y.email == email) = false) ∧
      (∀ y ∈ l1, (y.oid == u.oid) = false) ∧
      login db email password =
        (.ok { token := email, user := to_str_id (some (userDoc u)) },
         { db with users := l1 ++ (if email ∈ u.tokens then u
             else { u with tokens := u.tokens ++ [email] }) :: l2 }) := by
  rcases find?_decomp hu with ⟨l1, l2, hdec, hfalse⟩
  have hmem : u ∈ db.users := List.mem_of_find?_eq_some hu
  have hoidnd := hwf.2.2.2.1
  have hoidfalse : ∀ y ∈ l1, (y.oid == u.oid) = false := by
    intro y hy
    have hnotin : ¬ u.oid ∈ l1.map (fun v => v.oid) := by
      rw [hdec] at hoidnd
      simp only [List.map_append, List.map_cons] at hoidnd
      have hdisj := (List.nodup_append.mp hoidnd).2.2
      intro hin
      exact hdisj hin (by simp)
    have : y.oid ≠ u.oid := by
      intro hc
      exact hnotin (hc ▸ List.mem_map_of_mem _ hy)
    simp [this]
  refine ⟨l1, l2, hdec, hfalse, hoidfalse, ?_⟩
  simp only [login, hu, hpw, ne_eq, not_true_eq_false, if_false]
  rw [hdec, updateFirst_append _ _ _ _ hoidfalse,
    show updateFirst (fun v : UserDoc => v.oid == u.oid)
        (fun v => if v.tokens.contains email then v
          else { v with tokens := v.tokens ++ [email] }) (u :: l2) =
      (if u.tokens.contains email then u
        else { u with tokens := u.tokens ++ [email] }) :: l2 by
      simp [updateFirst]]
  by_cases hmemtok : email ∈ u.tokens
  · simp [hmemtok, hpw]
  · simp [hmemtok, hpw]

/-- A login that finds its email-as-token already recorded leaves the store
unchanged. -/
theorem login_second_unchanged (db : DB) (email password : String) (u' : UserDoc)
    (l1 l2 : List UserDoc)
    (husers : db.users = l1 ++ u' :: l2)
    (hfalse : ∀ y ∈ l1, (y.email == email) = false)
    (hoidfalse : ∀ y ∈ l1, (y.oid == u'.oid) = false)
    (he : u'.email = email) (hpw : u'.password_hash = password)
    (htok : email ∈ u'.tokens) :
    (login db email password).2 = db := by
  have hfind : db.users.find? (fun v => v.email == email) = some u' := by
    rw [husers, find?_append_none _ (by
        rw [List.find?_eq_none]
        intro y hy
        simp [hfalse y hy]),
      List.find?_cons_of_pos _ (by simp [he])]
  simp only [login, hfind, hpw, ne_eq, not_true_eq_false, if_false]
  rw [husers, updateFirst_append _ _ _ _ hoidfalse,
    show updateFirst (fun v : UserDoc => v.oid == u'.oid)
        (fun v => if v.tokens.contains email then v
          else { v with tokens := v.tokens ++ [email] }) (u' :: l2) =
      (if u'.tokens.contains email then u'
        else { u' with tokens := u'.tokens ++ [email] }) :: l2 by
      simp [updateFirst]]
  simp only [htok, List.elem_eq_true_of_mem, if_true]
  rw [← husers]

/-- C5: `login` fails with Unauthorized exactly when no stored user carries
the email with the exactly matching password; on success the token equals
the email, the token is added to the user's token set only when absent, and
a repeated successful login leaves the store unchanged. -/
theorem login_spec (db : DB) (email password : String) (hwf : db.WF) :
    ((login db email password).1 = .error (.http 401 "Invalid credentials") ↔
      ¬ ∃ u ∈ db.users, u.email = email ∧ u.password_hash = password) ∧
    (∀ u, db.users.find? (fun v => v.email == email) = some u →
      u.password_hash = password →
      (login db email password).1 =
        .ok { token := email, user := to_str_id (some (userDoc u)) } ∧
      (∃ u' ∈ (login db email password).2.users,
        u'.email = u.email ∧
        u'.tokens = (if email ∈ u.tokens then u.tokens else u.tokens ++ [email]) ∧
        email ∈ u'.tokens) ∧
      (login (login db email password).2 email password).2 =
        (login db email password).2) := by
  constructor
  · constructor
    · intro herr hex
      rcases hex with ⟨u0, hmem, he, hpw0⟩
      have hfind := users_find?_email hwf.2.2.2.2 hmem he
      simp [login, hfind, hpw0] at herr
    · intro hno
      cases hfind : db.users.find? (fun v => v.email == email) with
      | none => simp [login, hfind]
      | some u1 =>
        have hmem1 := List.mem_of_find?_eq_some hfind
        have he1 : u1.email = email := by simpa using List.find?_some hfind
        have hpw1 : u1.password_hash ≠ password := fun hc => hno ⟨u1, hmem1, he1, hc⟩
        simp [login, hfind, hpw1]
  · intro u hu hpw
    rcases login_success_state db email password u hwf hu hpw with
      ⟨l1, l2, hdec, hfalse, hoidfalse, heq⟩
    have he : u.email = email := by simpa using List.find?_some hu
    rw [heq]
    refine ⟨rfl, ?_, ?_⟩
    · refine ⟨(if email ∈ u.tokens then u else { u with tokens := u.tokens ++ [email] }),
        by simp, ?_, ?_, ?_⟩
      · by_cases hmt : email ∈ u.tokens <;> simp [hmt]
      · by_cases hmt : email ∈ u.tokens <;> simp [hmt]
      · by_cases hmt : email ∈ u.tokens <;> simp [hmt]
    · refine login_second_unchanged _ email password
        (if email ∈ u.tokens then u else { u with tokens := u.tokens ++ [email] })
        l1 l2 rfl hfalse ?_ ?_ ?_ ?_
      · intro y hy
        have := hoidfalse y hy
        by_cases hmt : email ∈ u.tokens <;> simpa [hmt] using this
      · by_cases hmt : email ∈ u.tokens <;> simp [hmt, he]
      · by_cases hmt : email ∈ u.tokens <;> simp [hmt, hpw]
      · by_cases hmt : email ∈ u.tokens <;> simp [hmt]

/-- Witness for C5: logging the example user in succeeds with the email as
token, and a repeated login leaves the store unchanged. -/
theorem login_spec_witness :
    ((login exDB "ann@x.com" "pw").1 = .error (.http 401 "Invalid credentials") ↔
      ¬ ∃ u ∈ exDB.users, u.email = "ann@x.com" ∧ u.password_hash = "pw") ∧
    (login exDB "ann@x.com" "pw").1 =
      .ok { token := "ann@x.com", user := to_str_id (some (userDoc exUser)) } ∧
    (∃ u' ∈ (login exDB "ann@x.com" "pw").2.users,
      u'.email = exUser.email ∧
      u'.tokens = (if "ann@x.com" ∈ exUser.tokens then exUser.tokens
        else exUser.tokens ++ ["ann@x.com"]) ∧
      "ann@x.com" ∈ u'.tokens) ∧
    (login (login exDB "ann@x.com" "pw").2 "ann@x.com" "pw").2 =
      (login exDB "ann@x.com" "pw").2 :=
  ⟨(login_spec exDB "ann@x.com" "pw" (by decide)).1,
   ((login_spec exDB "ann@x.com" "pw" (by decide)).2 exUser (by decide) rfl).1,
   ((login_spec exDB "ann@x.com" "pw" (by decide)).2 exUser (by decide) rfl).2.1,
   ((login_spec exDB "ann@x.com" "pw" (by decide)).2 exUser (by decide) rfl).2.2⟩

/-- C9: on a successful login whose token was not yet recorded, the user
object in the response is the pre-update snapshot: its `tokens` list does
not contain the token returned alongside it. -/
theorem login_snapshot_tokens (db : DB) (email password : String) (u : UserDoc)
    (hu : db.users.find? (fun v => v.email == email) = some u)
    (hpw : u.password_hash = password) (hnot : email ∉ u.tokens) :
    ∃ d : Doc, (login db email password).1 = .ok { token := email, user := some d } ∧
      getKey d "tokens" = some (.vStrList u.tokens) ∧ email ∉ u.tokens := by
  refine ⟨setKey (popKey (userDoc u) "_id") "id" (.vStr (oidToString u.oid)), ?_, ?_, hnot⟩
  · simp only [login, hu, hpw, ne_eq, not_true_eq_false, if_false]
    simp [to_str_id, userDoc, getKey, List.find?, strOfValue]
  · rw [getKey_setKey_ne _ _ _ _ (by decide), getKey_popKey_ne _ _ _ (by decide)]
    simp [getKey, userDoc, List.find?]

/-- Witness for C9: the fresh user's login response shows an empty token
list even though the returned token is "ann@x.com". -/
theorem login_snapshot_tokens_witness :
    ∃ d : Doc, (login exDBfresh "ann@x.com" "pw").1 =
        .ok { token := "ann@x.com", user := some d } ∧
      getKey d "tokens" = some (.vStrList exUserFresh.tokens) ∧
      "ann@x.com" ∉ exUserFresh.tokens :=
  login_snapshot_tokens exDBfresh "ann@x.com" "pw" exUserFresh (by decide) rfl (by decide)

end NetflixClone
